import Mathlib

/-!
Shallow embedding of the youtube-sync server core (src/server/server.py).

The server keeps, per room ("guild"), a playback queue, a media state
(current_time, length, playing, queue_index), a membership map from
connection handle to a user record, a was_paused flag and a last-update
timestamp.  The action handlers (set_profile, play/pause, add, remove,
jump, finished) mutate this state and emit events, either to the
requesting connection only or broadcast to every member.

Modelling choices, all read off the source:
  * wall-clock instants are natural numbers (seconds); each action is run
    at a single instant `now`, so `datetime.datetime.now()` calls inside
    one handler all return `now`;
  * connection handles (websockets) are natural numbers; the user map is
    an insertion-ordered association list, as a Python dict is;
  * dynamically typed JSON values that the handlers type-check with
    `assert type(..) == ..` are modelled by `PyVal`;
  * a handler returns the new guild, the list of events it emitted before
    returning or raising, and optionally the exception it raised
    (`AssertionError`, `KeyError`, or any other exception); the outer
    dispatch loop (`counter`) turns `AssertionError`/`KeyError` into a
    `RequestError` event to the requester and any other exception into a
    generic `Error` event (`counterWrap`);
  * the external metadata resolver (`ytmusic.get_song` / `ytmusic.search`)
    is an oracle parameter that returns already-normalised queue items,
    `none` / `[]` standing for a failed lookup.
-/

namespace YoutubeSync

/-- A queue entry as built by `action_add`: url, title, artist, length in
seconds, album art url. -/
structure QueueItem where
  url : String
  title : String
  artist : String
  length : Nat
  art : String
deriving DecidableEq

/-- A dynamically typed JSON scalar arriving in a request payload. -/
inductive PyVal
  | vstr (s : String)
  | vint (n : Int)
  | vbool (b : Bool)
deriving DecidableEq

/-- A member record: the user dict created by `register` and mutated by
`action_set_profile` and `action_mark_finished`.  `uid` is the hash of the
websocket; the three profile fields are optional (absent when popped). -/
structure Member where
  uid : Nat
  finished : Bool
  name : Option PyVal
  identifier : Option PyVal
  art : Option PyVal
deriving DecidableEq

/-- The `media_state` dict of a guild. -/
structure MediaState where
  current_time : Nat
  length : Nat
  playing : Bool
  queue_index : Int
deriving DecidableEq

/-- A guild: one room of the server. -/
structure Guild where
  id : String
  users : List (Nat × Member)
  media_state : MediaState
  last_update_time : Nat
  was_paused : Bool
  queue : List QueueItem
deriving DecidableEq

/-- Event target: `websocket.send` goes to the requester only,
`notify_all` broadcasts to every member. -/
inductive Target
  | requester
  | everyone
deriving DecidableEq

/-- An outbound event, as serialised by `error_event`, `media_state_event`,
`queue_event` and `users_event`. -/
inductive Ev
  | error (t : Target) (error : String) (message : String)
  | state (t : Target) (s : MediaState)
  | queueEv (t : Target) (q : List QueueItem)
  | usersEv (t : Target) (count : Nat)
deriving DecidableEq

/-- The exceptions a handler can raise into the dispatch loop. -/
inductive Exn
  | assertionError
  | keyError
  | otherError
deriving DecidableEq

/-- Result of running one action handler: the guild afterwards, the events
emitted before returning or raising, and the exception raised if any. -/
structure ActionResult where
  guild : Guild
  events : List Ev
  exn : Option Exn
deriving DecidableEq

/-- The exception handling of the dispatch loop `counter`: `KeyError` and
`AssertionError` become a `RequestError` event to the requester, any other
exception becomes a generic `Error` event. -/
def counterWrap (r : ActionResult) : Guild × List Ev :=
  match r.exn with
  | none => (r.guild, r.events)
  | some Exn.assertionError =>
      (r.guild, r.events ++ [Ev.error Target.requester "RequestError" "Malformed request."])
  | some Exn.keyError =>
      (r.guild, r.events ++ [Ev.error Target.requester "RequestError" "Malformed request."])
  | some Exn.otherError =>
      (r.guild, r.events ++ [Ev.error Target.requester "Error" "An unexpected error occurred."])

/-- Dict lookup `users[ws]`, `none` when the key is absent. -/
def lookupUser : List (Nat × Member) → Nat → Option Member
  | [], _ => none
  | (c, m) :: rest, k => if c = k then some m else lookupUser rest k

/-- Dict store `users[ws] = m`: replace in place, append when absent. -/
def setUser : List (Nat × Member) → Nat → Member → List (Nat × Member)
  | [], k, m => [(k, m)]
  | (c, m0) :: rest, k, m =>
      if c = k then (k, m) :: rest else (c, m0) :: setUser rest k m

/-- Guild.update_media_state_time: if playing and not was_paused, advance
current_time by the elapsed whole seconds, clamped above by length; then
record was_paused = not playing and last_update_time = now. -/
def updateMediaStateTime (g : Guild) (now : Nat) : Guild :=
  let ms := g.media_state
  let ms1 :=
    if ms.playing && !g.was_paused then
      { ms with current_time := min (ms.current_time + (now - g.last_update_time)) ms.length }
    else ms
  { g with media_state := ms1, was_paused := !ms1.playing, last_update_time := now }

/-- Guild.media_state_event: reconcile the clock, then serialise the state
event (sent to `t`). -/
def mediaStateEvent (t : Target) (g : Guild) (now : Nat) : Guild × Ev :=
  let g1 := updateMediaStateTime g now
  (g1, Ev.state t g1.media_state)

/-- Guild.__init__. -/
def initGuild (id : String) (now : Nat) : Guild :=
  { id := id
    users := []
    media_state := { current_time := 0, length := 0, playing := false, queue_index := -1 }
    last_update_time := now
    was_paused := false
    queue := [] }

/-- Guild.register: create the user record keyed by the connection,
broadcast the member list, send the queue and media-state snapshots to the
new connection only. -/
def register (g : Guild) (conn : Nat) (now : Nat) : Guild × List Ev :=
  let fresh : Member := { uid := conn, finished := true, name := none, identifier := none, art := none }
  let g1 := { g with users := setUser g.users conn fresh }
  let r := mediaStateEvent Target.requester g1 now
  (r.1, [Ev.usersEv Target.everyone g1.users.length,
         Ev.queueEv Target.requester g1.queue, r.2])

/-- Payload of a `jump` request: the two fields it reads. -/
structure JumpData where
  index : Option PyVal
  time : Option PyVal
deriving DecidableEq

/-- Guild.action_jump.  `wsPresent` records whether the handler was given a
real websocket (it is `None` when called from `action_mark_finished`, in
which case the error paths raise instead of sending).  Validation order as
in the source: assert the index is an int, read the optional seek time
asserting it is an int, bounds-check `queue_index + index`, then check
`0 <= time <= queue[target].length`; on success clear every finished flag,
reset the clock origin, install the new media state and broadcast it. -/
def actionJump (g : Guild) (wsPresent : Bool) (data : JumpData) (now : Nat) : ActionResult :=
  match data.index with
  | none => ⟨g, [], some Exn.keyError⟩
  | some (PyVal.vstr _) => ⟨g, [], some Exn.assertionError⟩
  | some (PyVal.vbool _) => ⟨g, [], some Exn.assertionError⟩
  | some (PyVal.vint idx) =>
    let timeRes : Except Exn Int :=
      match data.time with
      | none => Except.ok 0
      | some (PyVal.vint t) => Except.ok t
      | some _ => Except.error Exn.assertionError
    match timeRes with
    | Except.error e => ⟨g, [], some e⟩
    | Except.ok time =>
      let target := g.media_state.queue_index + idx
      if h : 0 ≤ target ∧ target < (g.queue.length : Int) then
        let item := g.queue.get ⟨target.toNat, by omega⟩
        if 0 ≤ time ∧ time ≤ (item.length : Int) then
          let g1 := { g with
            users := g.users.map (fun p => (p.1, { p.2 with finished := false })),
            last_update_time := now,
            media_state := { current_time := time.toNat, length := item.length,
                             playing := true, queue_index := target } }
          let r := mediaStateEvent Target.everyone g1 now
          ⟨r.1, [r.2], none⟩
        else if wsPresent then
          ⟨g, [Ev.error Target.requester "TimeLimitExceededError"
                 "The seek time specified is greater than the length of the video."], none⟩
        else ⟨g, [], some Exn.otherError⟩
      else if wsPresent then
        ⟨g, [Ev.error Target.requester "IndexError"
               "The index provided is out of bounds of the queue."], none⟩
      else ⟨g, [], some Exn.otherError⟩

/-- Guild.action_play_pause: assert the argument is a bool, set
media_state.playing, then broadcast the media state (which reconciles the
clock as a side effect, after playing was already overwritten). -/
def actionPlayPause (g : Guild) (playing : PyVal) (now : Nat) : ActionResult :=
  match playing with
  | PyVal.vbool b =>
      let g1 := { g with media_state := { g.media_state with playing := b } }
      let r := mediaStateEvent Target.everyone g1 now
      ⟨r.1, [r.2], none⟩
  | _ => ⟨g, [], some Exn.assertionError⟩

/-- Guild.action_remove: assert the index is a nonzero int, then try to
delete `queue[index]` (Python indexing: a negative index counts from the
end), reporting an IndexError event on an out-of-range index, and
broadcasting the new queue on success. -/
def actionRemove (g : Guild) (index : Int) : ActionResult :=
  if index = 0 then ⟨g, [], some Exn.assertionError⟩
  else
    let n : Int := g.queue.length
    let p : Int := if index < 0 then index + n else index
    if 0 ≤ p ∧ p < n then
      let g1 := { g with queue := g.queue.eraseIdx p.toNat }
      ⟨g1, [Ev.queueEv Target.everyone g1.queue], none⟩
    else
      ⟨g, [Ev.error Target.requester "IndexError" "The index provided is out of bounds."], none⟩

/-- Payload of a `set_profile` request: the three fields it reads. -/
structure ProfileData where
  name : Option PyVal
  identifier : Option PyVal
  art : Option PyVal
deriving DecidableEq

/-- Guild.action_set_profile.  The source loops over the literal keys
["name", "identifier", "art"] and asserts `type(key) == str` on the loop
variable itself, which is always a string, so the assertion never fires
and the provided values are stored unchecked: present keys are set, absent
keys are popped.  Raises KeyError when the connection is not a member. -/
def actionSetProfile (g : Guild) (conn : Nat) (data : ProfileData) : ActionResult :=
  match lookupUser g.users conn with
  | none => ⟨g, [], some Exn.keyError⟩
  | some m =>
      let m1 := { m with name := data.name, identifier := data.identifier, art := data.art }
      let g1 := { g with users := setUser g.users conn m1 }
      ⟨g1, [Ev.usersEv Target.everyone g1.users.length], none⟩

/-- Guild.action_mark_finished: set the caller's finished flag; when every
member is now finished, clear all flags and, unless queue_index is the
last index of the queue, jump to the next item (with no websocket, so a
jump failure would raise).  Raises KeyError when the caller is unknown. -/
def actionMarkFinished (g : Guild) (conn : Nat) (now : Nat) : ActionResult :=
  match lookupUser g.users conn with
  | none => ⟨g, [], some Exn.keyError⟩
  | some m =>
      let users1 := setUser g.users conn { m with finished := true }
      let g1 := { g with users := users1 }
      if users1.all (fun p => p.2.finished) then
        let g2 := { g1 with users := users1.map (fun p => (p.1, { p.2 with finished := false })) }
        if g2.media_state.queue_index = (g2.queue.length : Int) - 1 then
          ⟨g2, [], none⟩
        else
          actionJump g2 false { index := some (PyVal.vint 1), time := none } now
      else ⟨g1, [], none⟩

/-- Payload of an `add` request: whether the key "url" is present (the
source only tests its presence), and the optional "video_id" and "query"
strings that are handed to the resolver. -/
structure AddData where
  url : Bool
  video_id : Option String
  query : Option String
deriving DecidableEq

/-- The end-of-queue test computed by `action_add` after reconciling and
before appending: on the last item (or before any item with an empty
queue) and the item has fully played. -/
def playImmediately (g : Guild) : Bool :=
  g.media_state.queue_index == (g.queue.length : Int) - 1
    && g.media_state.current_time == g.media_state.length

/-- The tail of Guild.action_add once song metadata has been resolved:
reconcile the clock, compute the end-of-queue test, append, broadcast the
queue, and when the test fired, jump (relative +1) to the new item. -/
def addSong (g : Guild) (item : QueueItem) (now : Nat) : ActionResult :=
  let g1 := updateMediaStateTime g now
  let fire := playImmediately g1
  let g2 := { g1 with queue := g1.queue ++ [item] }
  let evq := Ev.queueEv Target.everyone g2.queue
  if fire then
    let r := actionJump g2 true { index := some (PyVal.vint 1), time := none } now
    ⟨r.guild, evq :: r.events, r.exn⟩
  else ⟨g2, [evq], none⟩

/-- Guild.action_add: assert that "query" or "video_id" is present, then
branch on whether the key "url" is present.  In the url branch, a missing
"video_id" or a failed `get_song` lookup both raise KeyError inside the
try block and are reported as InvalidVideoError to the requester.  In the
other branch, a missing "query" raises KeyError out of the handler, and an
empty search result raises IndexError (any other exception) out of the
handler; a hit uses the first result.  `getSong` and `search` are the
external resolver. -/
def actionAdd (g : Guild) (data : AddData) (getSong : String → Option QueueItem)
    (search : String → List QueueItem) (now : Nat) : ActionResult :=
  if !(data.query.isSome || data.video_id.isSome) then ⟨g, [], some Exn.assertionError⟩
  else if data.url then
    match data.video_id with
    | none =>
        ⟨g, [Ev.error Target.requester "InvalidVideoError"
               "The video ID provided was not a valid video."], none⟩
    | some vid =>
      match getSong vid with
      | none =>
          ⟨g, [Ev.error Target.requester "InvalidVideoError"
                 "The video ID provided was not a valid video."], none⟩
      | some item => addSong g item now
  else
    match data.query with
    | none => ⟨g, [], some Exn.keyError⟩
    | some q =>
      match search q with
      | [] => ⟨g, [], some Exn.otherError⟩
      | item :: _ => addSong g item now

/-- The room invariant claimed by the spec: current_time within the item
length, queue_index equal to -1 or a valid queue index, and the stored
length equal to the length of the current queue item. -/
def guildInv (g : Guild) : Prop :=
  g.media_state.current_time ≤ g.media_state.length ∧
  (g.media_state.queue_index = -1 ∨
    (0 ≤ g.media_state.queue_index ∧ g.media_state.queue_index < (g.queue.length : Int))) ∧
  (0 ≤ g.media_state.queue_index →
    (g.queue[g.media_state.queue_index.toNat]?).map QueueItem.length =
      some g.media_state.length)

instance (g : Guild) : Decidable (guildInv g) := by
  unfold guildInv; infer_instance


/-! Concrete fixtures used by witnesses and counterexamples. -/

/-- A 10-second track. -/
def trackA : QueueItem := ⟨"urlA", "titleA", "artistA", 10, "artA"⟩

/-- A 20-second track. -/
def trackB : QueueItem := ⟨"urlB", "titleB", "artistB", 20, "artB"⟩

/-- A 200-second track, the resolver result in the end-to-end scenario. -/
def track200 : QueueItem := ⟨"https://youtube.com/embed/x", "track x", "artist x", 200, "artX"⟩

/-- A member who has finished the current item. -/
def memberOne : Member := ⟨1, true, none, none, none⟩

/-- A two-track guild currently playing the second track. -/
def gTwoTracks : Guild :=
  { id := "r", users := [(1, memberOne)], media_state := ⟨5, 20, true, 1⟩,
    last_update_time := 0, was_paused := false, queue := [trackA, trackB] }

/-- A one-track guild at the start of its only track, playing. -/
def gPlaying : Guild :=
  { id := "p", users := [(1, memberOne)], media_state := ⟨0, 100, true, 0⟩,
    last_update_time := 0, was_paused := false,
    queue := [⟨"u", "t", "a", 100, "art"⟩] }

/-- A guild reached through the public interface alone: one join, two adds
(resolved by query) and a relative jump to the second track.  Used to show
the remove counterexample state is reachable. -/
def gReachedTwo : Guild :=
  let g0 := (register (initGuild "r" 0) 1 0).1
  let g1 := (actionAdd g0 ⟨false, none, some "a"⟩ (fun _ => none) (fun _ => [trackA]) 0).guild
  let g2 := (actionAdd g1 ⟨false, none, some "b"⟩ (fun _ => none) (fun _ => [trackB]) 0).guild
  (actionJump g2 true ⟨some (PyVal.vint 1), none⟩ 0).guild

/-! Helper lemmas: preservation of the room invariant by each handler. -/

/-- Reconciliation only moves current_time towards the clamp, so the
invariant survives it. -/
theorem guildInv_update (g : Guild) (now : Nat) (h : guildInv g) :
    guildInv (updateMediaStateTime g now) := by
  obtain ⟨h1, h2, h3⟩ := h
  unfold guildInv updateMediaStateTime
  dsimp only
  split
  · exact ⟨min_le_right _ _, h2, h3⟩
  · exact ⟨h1, h2, h3⟩

/-- Appending to the queue keeps every previously valid index valid and
does not move the current item. -/
theorem guildInv_append (g : Guild) (item : QueueItem) (h : guildInv g) :
    guildInv { g with queue := g.queue ++ [item] } := by
  obtain ⟨h1, h2, h3⟩ := h
  unfold guildInv
  dsimp only
  refine ⟨h1, ?_, ?_⟩
  · rcases h2 with h2 | h2
    · exact Or.inl h2
    · right
      refine ⟨h2.1, ?_⟩
      rw [List.length_append]
      simp only [List.length_singleton]
      omega
  · intro hq
    have h3q := h3 hq
    rcases h2 with h2 | h2
    · omega
    · rw [List.getElem?_append_left (by omega)]
      exact h3q

/-- The state installed by a successful jump satisfies the invariant: the
seek time is within the target length and the target index is in range. -/
theorem guildInv_jumpTarget (g : Guild) (target time : Int) (now : Nat)
    (hb : 0 ≤ target ∧ target < (g.queue.length : Int))
    (hlt : target.toNat < g.queue.length)
    (ht : 0 ≤ time ∧ time ≤ ((g.queue.get ⟨target.toNat, hlt⟩).length : Int)) :
    guildInv { g with
      users := g.users.map (fun p => (p.1, { p.2 with finished := false })),
      last_update_time := now,
      media_state := { current_time := time.toNat,
                       length := (g.queue.get ⟨target.toNat, hlt⟩).length,
                       playing := true, queue_index := target } } := by
  unfold guildInv
  dsimp only
  refine ⟨by omega, Or.inr hb, ?_⟩
  intro _
  rw [List.getElem?_eq_getElem hlt]
  simp [List.get_eq_getElem]

/-- Jump either leaves the guild untouched (validation failure) or installs
a state drawn from a valid queue index, so it preserves the invariant. -/
theorem guildInv_actionJump (g : Guild) (ws : Bool) (d : JumpData) (now : Nat)
    (h : guildInv g) : guildInv (actionJump g ws d now).guild := by
  obtain ⟨di, dt⟩ := d
  unfold actionJump
  cases di with
  | none => exact h
  | some v =>
    cases v with
    | vstr s => exact h
    | vbool b => exact h
    | vint idx =>
      dsimp only
      cases dt with
      | none =>
        dsimp only
        split
        case isTrue hb =>
          split
          case isTrue ht =>
            apply guildInv_update
            exact guildInv_jumpTarget g _ 0 now hb (by omega) ht
          case isFalse ht =>
            split <;> exact h
        case isFalse hb =>
          split <;> exact h
      | some tv =>
        cases tv with
        | vstr s => exact h
        | vbool b => exact h
        | vint t =>
          dsimp only
          split
          case isTrue hb =>
            split
            case isTrue ht =>
              apply guildInv_update
              exact guildInv_jumpTarget g _ t now hb (by omega) ht
            case isFalse ht =>
              split <;> exact h
          case isFalse hb =>
            split <;> exact h

/-- play_pause only toggles the playing flag before reconciling, neither of
which can break the invariant. -/
theorem guildInv_actionPlayPause (g : Guild) (v : PyVal) (now : Nat) (h : guildInv g) :
    guildInv (actionPlayPause g v now).guild := by
  cases v with
  | vstr s => exact h
  | vint n => exact h
  | vbool b =>
    unfold actionPlayPause
    dsimp only
    apply guildInv_update
    exact ⟨h.1, h.2.1, h.2.2⟩

/-- set_profile only touches the member map. -/
theorem guildInv_actionSetProfile (g : Guild) (conn : Nat) (pd : ProfileData)
    (h : guildInv g) : guildInv (actionSetProfile g conn pd).guild := by
  unfold actionSetProfile
  cases hl : lookupUser g.users conn with
  | none => exact h
  | some m => exact ⟨h.1, h.2.1, h.2.2⟩

/-- The tail of add preserves the invariant: reconcile, append, and
possibly jump, each of which preserves it. -/
theorem guildInv_addSong (g : Guild) (item : QueueItem) (now : Nat) (h : guildInv g) :
    guildInv (addSong g item now).guild := by
  unfold addSong
  dsimp only
  split
  · exact guildInv_actionJump _ _ _ _ (guildInv_append _ _ (guildInv_update _ _ h))
  · exact guildInv_append _ _ (guildInv_update _ _ h)

/-- add preserves the invariant on every path. -/
theorem guildInv_actionAdd (g : Guild) (data : AddData)
    (getSong : String → Option QueueItem) (search : String → List QueueItem)
    (now : Nat) (h : guildInv g) :
    guildInv (actionAdd g data getSong search now).guild := by
  unfold actionAdd
  split
  · exact h
  · split
    · cases hv : data.video_id with
      | none => dsimp only; exact h
      | some vid =>
        dsimp only
        cases hs : getSong vid with
        | none => dsimp only; exact h
        | some item => dsimp only; exact guildInv_addSong _ _ _ h
    · cases hq : data.query with
      | none => dsimp only; exact h
      | some q =>
        dsimp only
        cases hs : search q with
        | nil => dsimp only; exact h
        | cons item rest => dsimp only; exact guildInv_addSong _ _ _ h

/-- Replacing the member map cannot break the invariant, which only reads
the media state and the queue. -/
theorem guildInv_users (g : Guild) (us : List (Nat × Member)) (h : guildInv g) :
    guildInv { g with users := us } :=
  ⟨h.1, h.2.1, h.2.2⟩

/-- mark_finished only touches finished flags, except for the jump it may
delegate to, which preserves the invariant. -/
theorem guildInv_actionMarkFinished (g : Guild) (conn : Nat) (now : Nat)
    (h : guildInv g) : guildInv (actionMarkFinished g conn now).guild := by
  unfold actionMarkFinished
  split
  · exact h
  · dsimp only
    split
    · split
      · exact guildInv_users g _ h
      · exact guildInv_actionJump _ _ _ _ (guildInv_users g _ h)
    · exact guildInv_users g _ h

/-- remove preserves the invariant when the normalised deletion position
lies strictly beyond queue_index: entries at or before the current pointer
keep their places and the pointer stays in range. -/
theorem guildInv_eraseIdx (g : Guild) (p : Int) (h : guildInv g)
    (hgt : g.media_state.queue_index < p)
    (hb : 0 ≤ p ∧ p < (g.queue.length : Int)) :
    guildInv { g with queue := g.queue.eraseIdx p.toNat } := by
  obtain ⟨h1, h2, h3⟩ := h
  unfold guildInv
  dsimp only
  refine ⟨h1, ?_, ?_⟩
  · rcases h2 with h2 | h2
    · exact Or.inl h2
    · right
      refine ⟨h2.1, ?_⟩
      rw [List.length_eraseIdx]
      split <;> omega
  · intro hq
    have h3q := h3 hq
    rw [List.getElem?_eraseIdx, if_pos (by omega)]
    exact h3q

/-- remove preserves the invariant when the normalised deletion position
lies strictly beyond queue_index: entries at or before the current pointer
keep their places and the pointer stays in range. -/
theorem guildInv_actionRemove (g : Guild) (idx : Int) (h : guildInv g)
    (hgt : g.media_state.queue_index <
      (if idx < 0 then idx + (g.queue.length : Int) else idx)) :
    guildInv (actionRemove g idx).guild := by
  unfold actionRemove
  split
  · exact h
  · dsimp only
    by_cases hneg : idx < 0
    · rw [if_pos hneg] at hgt ⊢
      split
      next hb => exact guildInv_eraseIdx g _ h hgt hb
      next hb => exact h
    · rw [if_neg hneg] at hgt ⊢
      split
      next hb => exact guildInv_eraseIdx g _ h hgt hb
      next hb => exact h

/-! Claim theorems. -/

/-- C1 (amended): starting from any guild satisfying the room invariant
(current_time at most length; queue_index equal to -1 or a valid queue
index; stored length matching the current item), the invariant holds again
after clock reconciliation, play_pause, set_profile, jump, add and
mark_finished; after remove it holds provided the normalised deletion
position lies strictly beyond queue_index.  The unconditional claim that
remove preserves the invariant at arbitrary non-zero indices is refuted by
the counterexample theorem. -/
theorem C1_invariant_after_handlers (g : Guild) (now conn : Nat) (v : PyVal) (b : Bool)
    (jd : JumpData) (ad : AddData) (gs : String → Option QueueItem)
    (se : String → List QueueItem) (pd : ProfileData) (idx : Int)
    (h : guildInv g) :
    guildInv (updateMediaStateTime g now) ∧
    guildInv (actionPlayPause g v now).guild ∧
    guildInv (actionSetProfile g conn pd).guild ∧
    guildInv (actionJump g b jd now).guild ∧
    guildInv (actionAdd g ad gs se now).guild ∧
    guildInv (actionMarkFinished g conn now).guild ∧
    (g.media_state.queue_index <
        (if idx < 0 then idx + (g.queue.length : Int) else idx) →
      guildInv (actionRemove g idx).guild) :=
  ⟨guildInv_update g now h, guildInv_actionPlayPause g v now h,
   guildInv_actionSetProfile g conn pd h, guildInv_actionJump g b jd now h,
   guildInv_actionAdd g ad gs se now h, guildInv_actionMarkFinished g conn now h,
   fun hgt => guildInv_actionRemove g idx h hgt⟩

/-- Witness for C1: a concrete playing guild satisfies the invariant, and
so does the result of each handler on it, including a remove whose target
(an out-of-range index 5, normalised to itself) lies beyond queue_index. -/
theorem C1_invariant_after_handlers_witness :
    guildInv gPlaying ∧ guildInv (updateMediaStateTime gPlaying 3) ∧
    guildInv (actionPlayPause gPlaying (PyVal.vbool true) 3).guild ∧
    guildInv (actionSetProfile gPlaying 1 ⟨none, none, none⟩).guild ∧
    guildInv (actionJump gPlaying true ⟨some (PyVal.vint 0), none⟩ 3).guild ∧
    guildInv (actionAdd gPlaying ⟨false, none, some "x"⟩ (fun _ => none)
      (fun _ => [track200]) 3).guild ∧
    guildInv (actionMarkFinished gPlaying 1 3).guild ∧
    guildInv (actionRemove gPlaying 5).guild := by
  have h : guildInv gPlaying := by decide
  have r := C1_invariant_after_handlers gPlaying 3 1 (PyVal.vbool true) true
    ⟨some (PyVal.vint 0), none⟩ ⟨false, none, some "x"⟩ (fun _ => none)
    (fun _ => [track200]) ⟨none, none, none⟩ 5 h
  exact ⟨h, r.1, r.2.1, r.2.2.1, r.2.2.2.1, r.2.2.2.2.1, r.2.2.2.2.2.1,
    r.2.2.2.2.2.2 (by decide)⟩

/-- C1 counterexample: gReachedTwo — reachable through the public
interface by one join, two adds and a relative jump, and satisfying the
invariant — is broken by remove(1): the deleted position equals
queue_index, leaving queue_index out of bounds. -/
theorem C1_remove_breaks_invariant :
    guildInv gReachedTwo ∧ ¬ guildInv (actionRemove gReachedTwo 1).guild := by
  decide

/-- C6 counterexample: remove(0) on a two-item queue does fail and leaves
the queue unchanged, but through the assert raising AssertionError, which
the dispatch loop reports as RequestError — not IndexError as claimed. -/
theorem C6_remove_zero_reports_RequestError :
    actionRemove gTwoTracks 0 = ⟨gTwoTracks, [], some Exn.assertionError⟩ ∧
    counterWrap (actionRemove gTwoTracks 0) =
      (gTwoTracks, [Ev.error Target.requester "RequestError" "Malformed request."]) ∧
    "RequestError" ≠ "IndexError" := by
  refine ⟨rfl, rfl, by decide⟩

/-- C6 (amended): remove with index 0 always fails and leaves the queue
unchanged, but the error event reported to the requester is RequestError
(from the AssertionError of the index-zero assert); remove with a non-zero
index whose Python normalisation is out of bounds reports IndexError to
the requester and leaves the queue unchanged. -/
theorem C6_remove_errors (g : Guild) (idx : Int) :
    (idx = 0 →
      actionRemove g idx = ⟨g, [], some Exn.assertionError⟩ ∧
      counterWrap (actionRemove g idx) =
        (g, [Ev.error Target.requester "RequestError" "Malformed request."])) ∧
    (idx ≠ 0 →
      ¬(0 ≤ (if idx < 0 then idx + (g.queue.length : Int) else idx) ∧
          (if idx < 0 then idx + (g.queue.length : Int) else idx) <
            (g.queue.length : Int)) →
      actionRemove g idx =
        ⟨g, [Ev.error Target.requester "IndexError"
              "The index provided is out of bounds."], none⟩) := by
  constructor
  · intro h0
    subst h0
    exact ⟨rfl, rfl⟩
  · intro hnz hob
    unfold actionRemove
    rw [if_neg hnz]
    dsimp only
    rw [if_neg hob]

/-- Witness for C6: remove(5) on the two-track guild yields the IndexError
event, and remove(0) the AssertionError. -/
theorem C6_remove_errors_witness :
    actionRemove gTwoTracks 5 =
      ⟨gTwoTracks, [Ev.error Target.requester "IndexError"
        "The index provided is out of bounds."], none⟩ ∧
    actionRemove gTwoTracks 0 = ⟨gTwoTracks, [], some Exn.assertionError⟩ := by
  constructor
  · exact (C6_remove_errors gTwoTracks 5).2 (by decide) (by decide)
  · exact ((C6_remove_errors gTwoTracks 0).1 rfl).1

/-- C7 counterexample: with the one-track guild playing since time 0
(current_time 0, length 100, last reconciliation at 0), pausing at time 5
leaves current_time at 0, while the claim — reconcile first, then set
playing — demands min(0 + (5 - 0), 100) = 5.  The handler sets playing
before the broadcast reconciles, so the five elapsed seconds are lost. -/
theorem C7_pause_drops_elapsed_time :
    (actionPlayPause gPlaying (PyVal.vbool false) 5).guild.media_state.current_time = 0 ∧
    min (gPlaying.media_state.current_time + (5 - gPlaying.last_update_time))
        gPlaying.media_state.length = 5 ∧
    (0 : Nat) ≠ 5 := by
  refine ⟨rfl, by decide, by decide⟩

/-- C7 (amended): play_pause first sets state.playing and only then
reconciles the clock (inside the media-state broadcast), so pausing after
uninterrupted play leaves current_time unchanged — the elapsed seconds are
dropped rather than credited; a non-boolean playing value raises
AssertionError, reported as RequestError to the requester, with the guild
unchanged. -/
theorem C7_play_pause_sets_then_reconciles (g : Guild) (v : PyVal) (b : Bool) (now : Nat) :
    (v = PyVal.vbool b →
      actionPlayPause g v now =
        ⟨updateMediaStateTime
            { g with media_state := { g.media_state with playing := b } } now,
         [Ev.state Target.everyone
            (updateMediaStateTime
              { g with media_state := { g.media_state with playing := b } } now).media_state],
         none⟩) ∧
    ((actionPlayPause g (PyVal.vbool false) now).guild.media_state.current_time =
      g.media_state.current_time) ∧
    ((∀ c : Bool, v ≠ PyVal.vbool c) →
      actionPlayPause g v now = ⟨g, [], some Exn.assertionError⟩ ∧
      counterWrap (actionPlayPause g v now) =
        (g, [Ev.error Target.requester "RequestError" "Malformed request."])) := by
  refine ⟨?_, ?_, ?_⟩
  · intro hv
    subst hv
    rfl
  · unfold actionPlayPause mediaStateEvent updateMediaStateTime
    dsimp only
    rw [if_neg (by simp)]
  · intro hv
    cases v with
    | vstr s => exact ⟨rfl, rfl⟩
    | vint n => exact ⟨rfl, rfl⟩
    | vbool c => exact absurd rfl (hv c)

/-- Witness for C7: pausing the playing one-track guild at time 5 produces
exactly the set-then-reconcile result, and a string payload is rejected as
AssertionError. -/
theorem C7_play_pause_witness :
    actionPlayPause gPlaying (PyVal.vbool false) 5 =
      ⟨updateMediaStateTime
          { gPlaying with media_state := { gPlaying.media_state with playing := false } } 5,
       [Ev.state Target.everyone
          (updateMediaStateTime
            { gPlaying with media_state := { gPlaying.media_state with playing := false } } 5).media_state],
       none⟩ ∧
    actionPlayPause gPlaying (PyVal.vstr "x") 5 = ⟨gPlaying, [], some Exn.assertionError⟩ := by
  constructor
  · exact (C7_play_pause_sets_then_reconciles gPlaying (PyVal.vbool false) false 5).1 rfl
  · exact ((C7_play_pause_sets_then_reconciles gPlaying (PyVal.vstr "x") false 5).2.2
      (fun c => by simp)).1

/-- C8: the source asserts that "video_id" or "query" is present but then
branches on the presence of "url"; a request carrying only video_id falls
into the query branch and raises KeyError on data["query"], reported as
RequestError — no metadata lookup happens (the lookup oracle supplied here
would succeed), no InvalidVideoError is produced and the queue is
unchanged, contradicting the claim that add accepts a bare video_id. -/
theorem C8_bare_video_id_never_looked_up :
    actionAdd gPlaying ⟨false, some "abc", none⟩ (fun _ => some track200)
        (fun _ => [track200]) 5 =
      ⟨gPlaying, [], some Exn.keyError⟩ ∧
    counterWrap (actionAdd gPlaying ⟨false, some "abc", none⟩ (fun _ => some track200)
        (fun _ => [track200]) 5) =
      (gPlaying, [Ev.error Target.requester "RequestError" "Malformed request."]) := by
  exact ⟨rfl, rfl⟩

/-- C9: the validation assert in set_profile checks the loop variable — a
string literal, always a string — instead of the provided value, so a
non-string name (here the integer 5) is accepted without any error and
stored verbatim on the member, rather than being rejected. -/
theorem C9_nonstring_profile_accepted :
    (actionSetProfile gPlaying 1 ⟨some (PyVal.vint 5), none, none⟩).exn = none ∧
    (actionSetProfile gPlaying 1 ⟨some (PyVal.vint 5), none, none⟩).events =
      [Ev.usersEv Target.everyone 1] ∧
    lookupUser (actionSetProfile gPlaying 1 ⟨some (PyVal.vint 5), none, none⟩).guild.users 1 =
      some ⟨1, true, some (PyVal.vint 5), none, none⟩ := by
  decide

/-- C10: for a non-empty queue and any integer i with -len <= i <= -1,
remove(i) reports no error: it deletes the entry at position len + i
counted from the front (Python negative indexing) and broadcasts the new
queue — remove(-1) deletes the last item even when queue_index refers to
it, because the validation only excludes the literal index 0. -/
theorem C10_negative_index_removes (g : Guild) (i : Int)
    (h1 : 1 ≤ g.queue.length) (h2 : -(g.queue.length : Int) ≤ i) (h3 : i ≤ -1) :
    actionRemove g i =
      ⟨{ g with queue := g.queue.eraseIdx ((g.queue.length : Int) + i).toNat },
       [Ev.queueEv Target.everyone
          (g.queue.eraseIdx ((g.queue.length : Int) + i).toNat)],
       none⟩ := by
  have hc : (g.queue.length : Int) + i = i + (g.queue.length : Int) := by omega
  rw [hc]
  unfold actionRemove
  rw [if_neg (show ¬(i = 0) by omega)]
  dsimp only
  rw [if_pos (show i < 0 by omega),
      if_pos (show 0 ≤ i + (g.queue.length : Int) ∧
        i + (g.queue.length : Int) < (g.queue.length : Int) by constructor <;> omega)]

/-- Witness for C10: remove(-1) on the two-track guild — whose queue_index
points at the last track — deletes that last track without error. -/
theorem C10_negative_index_removes_witness :
    actionRemove gTwoTracks (-1) =
      ⟨{ gTwoTracks with
          queue := gTwoTracks.queue.eraseIdx (((gTwoTracks.queue.length : Int) + -1).toNat) },
       [Ev.queueEv Target.everyone
          (gTwoTracks.queue.eraseIdx (((gTwoTracks.queue.length : Int) + -1).toNat))],
       none⟩ :=
  C10_negative_index_removes gTwoTracks (-1) (by decide) (by decide) (by decide)

/-- Recover the checked-access form of a list read from its optional
form. -/
theorem get_eq_of_getElem?_eq {α : Type} (l : List α) (n : Nat) (hlt : n < l.length)
    (a : α) (h : l[n]? = some a) : l.get ⟨n, hlt⟩ = a := by
  rw [List.get_eq_getElem]
  rw [List.getElem?_eq_getElem hlt] at h
  exact Option.some.inj h

/-- Reconciling at the very instant recorded as the last update is the
identity on the media state apart from the was_paused bookkeeping. -/
theorem update_now_fixed (g : Guild) (now : Nat)
    (hl : g.last_update_time = now)
    (hc : g.media_state.current_time ≤ g.media_state.length) :
    updateMediaStateTime g now =
      { g with was_paused := !g.media_state.playing, last_update_time := now } := by
  unfold updateMediaStateTime
  dsimp only
  split
  · rw [hl, Nat.sub_self, Nat.add_zero, min_eq_left hc]
  · rfl

/-- Clearing every finished flag twice is the same as clearing it once. -/
theorem clear_finished_twice (l : List (Nat × Member)) :
    (l.map (fun p => (p.1, { p.2 with finished := false }))).map
        (fun p => (p.1, { p.2 with finished := false })) =
      l.map (fun p => (p.1, { p.2 with finished := false })) := by
  induction l with
  | nil => rfl
  | cons a tl ih => simp only [List.map_cons, ih]

/-- An out-of-bounds relative jump reports IndexError to the requester and
changes nothing. -/
theorem actionJump_oob (g : Guild) (idx : Int) (t : Option Int) (now : Nat)
    (hni : ¬(0 ≤ g.media_state.queue_index + idx ∧
        g.media_state.queue_index + idx < (g.queue.length : Int))) :
    actionJump g true ⟨some (PyVal.vint idx), t.map PyVal.vint⟩ now =
      ⟨g, [Ev.error Target.requester "IndexError"
            "The index provided is out of bounds of the queue."], none⟩ := by
  cases t with
  | none =>
    unfold actionJump
    simp only [Option.map_none']
    rw [dif_neg hni, if_pos trivial]
  | some tv =>
    unfold actionJump
    simp only [Option.map_some']
    rw [dif_neg hni, if_pos trivial]

/-- A relative jump whose seek time fails the 0 <= time <= length check
reports TimeLimitExceededError to the requester and changes nothing. -/
theorem actionJump_badTime (g : Guild) (idx : Int) (t : Option Int) (now : Nat)
    (item : QueueItem)
    (hin : 0 ≤ g.media_state.queue_index + idx ∧
        g.media_state.queue_index + idx < (g.queue.length : Int))
    (hitem : g.queue[(g.media_state.queue_index + idx).toNat]? = some item)
    (hnt : ¬(0 ≤ t.getD 0 ∧ t.getD 0 ≤ (item.length : Int))) :
    actionJump g true ⟨some (PyVal.vint idx), t.map PyVal.vint⟩ now =
      ⟨g, [Ev.error Target.requester "TimeLimitExceededError"
            "The seek time specified is greater than the length of the video."], none⟩ := by
  have hlt : (g.media_state.queue_index + idx).toNat < g.queue.length := by omega
  have hget : g.queue.get ⟨(g.media_state.queue_index + idx).toNat, hlt⟩ = item :=
    get_eq_of_getElem?_eq _ _ hlt item hitem
  cases t with
  | none =>
    unfold actionJump
    simp only [Option.map_none']
    rw [dif_pos hin]
    simp only [Option.getD_none] at hnt
    rw [hget, if_neg hnt, if_pos trivial]
  | some tv =>
    unfold actionJump
    simp only [Option.map_some']
    rw [dif_pos hin]
    simp only [Option.getD_some] at hnt
    rw [hget, if_neg hnt, if_pos trivial]

/-- A validated relative jump clears every finished flag, installs the new
media state (seek time, target length, playing, target index), resets the
clock origin and broadcasts the state. -/
theorem actionJump_success (g : Guild) (ws : Bool) (idx : Int) (t : Option Int)
    (now : Nat) (item : QueueItem)
    (hin : 0 ≤ g.media_state.queue_index + idx ∧
        g.media_state.queue_index + idx < (g.queue.length : Int))
    (hitem : g.queue[(g.media_state.queue_index + idx).toNat]? = some item)
    (ht : 0 ≤ t.getD 0 ∧ t.getD 0 ≤ (item.length : Int)) :
    actionJump g ws ⟨some (PyVal.vint idx), t.map PyVal.vint⟩ now =
      ⟨{ g with
          users := g.users.map (fun p => (p.1, { p.2 with finished := false })),
          last_update_time := now,
          was_paused := false,
          media_state := { current_time := (t.getD 0).toNat, length := item.length,
                           playing := true,
                           queue_index := g.media_state.queue_index + idx } },
        [Ev.state Target.everyone
          { current_time := (t.getD 0).toNat, length := item.length,
            playing := true, queue_index := g.media_state.queue_index + idx }],
        none⟩ := by
  have hlt : (g.media_state.queue_index + idx).toNat < g.queue.length := by omega
  have hget : g.queue.get ⟨(g.media_state.queue_index + idx).toNat, hlt⟩ = item :=
    get_eq_of_getElem?_eq _ _ hlt item hitem
  cases t with
  | none =>
    unfold actionJump
    simp only [Option.map_none']
    rw [dif_pos hin]
    simp only [Option.getD_none] at ht ⊢
    rw [hget, if_pos ht]
    dsimp only [mediaStateEvent]
    rw [update_now_fixed _ now rfl (by dsimp only; omega)]
    rfl
  | some tv =>
    unfold actionJump
    simp only [Option.map_some']
    rw [dif_pos hin]
    simp only [Option.getD_some] at ht ⊢
    rw [hget, if_pos ht]
    dsimp only [mediaStateEvent]
    rw [update_now_fixed _ now rfl (by dsimp only; omega)]
    rfl

/-- C5: for any room and jump request with integer relative index and
optional integer seek time, writing target = queue_index + index: an
out-of-range target yields an IndexError event to the requester and the
room is unchanged; an in-range target whose seek time (default 0) is
outside [0, queue[target].length] yields a TimeLimitExceededError event
and the room is unchanged; otherwise jump clears every finished flag,
installs current_time = time, length = queue[target].length,
playing = true, queue_index = target, resets last_update_at to now and
broadcasts the state — so after jump(index=+1) from queue_index k the new
queue_index is k+1 and every finished flag is false. -/
theorem C5_jump_contract (g : Guild) (idx : Int) (t : Option Int) (now : Nat)
    (item : QueueItem) :
    (¬(0 ≤ g.media_state.queue_index + idx ∧
        g.media_state.queue_index + idx < (g.queue.length : Int)) →
      actionJump g true ⟨some (PyVal.vint idx), t.map PyVal.vint⟩ now =
        ⟨g, [Ev.error Target.requester "IndexError"
              "The index provided is out of bounds of the queue."], none⟩) ∧
    (0 ≤ g.media_state.queue_index + idx ∧
        g.media_state.queue_index + idx < (g.queue.length : Int) →
      g.queue[(g.media_state.queue_index + idx).toNat]? = some item →
      ¬(0 ≤ t.getD 0 ∧ t.getD 0 ≤ (item.length : Int)) →
      actionJump g true ⟨some (PyVal.vint idx), t.map PyVal.vint⟩ now =
        ⟨g, [Ev.error Target.requester "TimeLimitExceededError"
              "The seek time specified is greater than the length of the video."], none⟩) ∧
    (0 ≤ g.media_state.queue_index + idx ∧
        g.media_state.queue_index + idx < (g.queue.length : Int) →
      g.queue[(g.media_state.queue_index + idx).toNat]? = some item →
      0 ≤ t.getD 0 ∧ t.getD 0 ≤ (item.length : Int) →
      actionJump g true ⟨some (PyVal.vint idx), t.map PyVal.vint⟩ now =
        ⟨{ g with
            users := g.users.map (fun p => (p.1, { p.2 with finished := false })),
            last_update_time := now,
            was_paused := false,
            media_state := { current_time := (t.getD 0).toNat, length := item.length,
                             playing := true,
                             queue_index := g.media_state.queue_index + idx } },
          [Ev.state Target.everyone
            { current_time := (t.getD 0).toNat, length := item.length,
              playing := true, queue_index := g.media_state.queue_index + idx }],
          none⟩) :=
  ⟨fun hni => actionJump_oob g idx t now hni,
   fun hin hitem hnt => actionJump_badTime g idx t now item hin hitem hnt,
   fun hin hitem ht => actionJump_success g true idx t now item hin hitem ht⟩

/-- Witness for C5 on the two-track guild at queue_index 1: jump(+5) is
out of bounds, jump(-1, 99) exceeds the 10-second first track, and
jump(-1, 3) succeeds, moving to index 0 with every flag cleared. -/
theorem C5_jump_contract_witness :
    actionJump gTwoTracks true ⟨some (PyVal.vint 5), none⟩ 7 =
      ⟨gTwoTracks, [Ev.error Target.requester "IndexError"
        "The index provided is out of bounds of the queue."], none⟩ ∧
    actionJump gTwoTracks true ⟨some (PyVal.vint (-1)), some (PyVal.vint 99)⟩ 7 =
      ⟨gTwoTracks, [Ev.error Target.requester "TimeLimitExceededError"
        "The seek time specified is greater than the length of the video."], none⟩ ∧
    actionJump gTwoTracks true ⟨some (PyVal.vint (-1)), some (PyVal.vint 3)⟩ 7 =
      ⟨{ gTwoTracks with
          users := gTwoTracks.users.map (fun p => (p.1, { p.2 with finished := false })),
          last_update_time := 7,
          was_paused := false,
          media_state := { current_time := 3, length := trackA.length,
                           playing := true, queue_index := 0 } },
        [Ev.state Target.everyone
          { current_time := 3, length := trackA.length,
            playing := true, queue_index := 0 }],
        none⟩ := by
  refine ⟨(C5_jump_contract gTwoTracks 5 none 7 trackA).1 (by decide), ?_, ?_⟩
  · exact (C5_jump_contract gTwoTracks (-1) (some 99) 7 trackA).2.1
      (by decide) (by decide) (by decide)
  · exact (C5_jump_contract gTwoTracks (-1) (some 3) 7 trackA).2.2
      (by decide) (by decide) (by decide)

/-- Reconciliation does not touch the queue. -/
theorem updateMediaStateTime_queue (g : Guild) (now : Nat) :
    (updateMediaStateTime g now).queue = g.queue := rfl

/-- C2: the auto-advance in add fires exactly when, after reconciliation
and before the append, queue_index equals the last index of the pre-append
queue (len(queue) - 1 measured before the append) and current_time equals
length; when it fires the result is the appended room put through
jump(index=+1), otherwise the append alone; and the first add to a fresh
room (queue_index -1, empty queue, current_time = length = 0) fires it,
ending at queue_index 0, playing, current_time 0. -/
theorem C2_add_auto_advance (g : Guild) (item : QueueItem) (now : Nat) :
    (playImmediately (updateMediaStateTime g now) = true ↔
      ((updateMediaStateTime g now).media_state.queue_index =
          (g.queue.length : Int) - 1 ∧
        (updateMediaStateTime g now).media_state.current_time =
          (updateMediaStateTime g now).media_state.length)) ∧
    (playImmediately (updateMediaStateTime g now) = true →
      addSong g item now =
        ⟨(actionJump { updateMediaStateTime g now with
              queue := (updateMediaStateTime g now).queue ++ [item] } true
            ⟨some (PyVal.vint 1), none⟩ now).guild,
          Ev.queueEv Target.everyone ((updateMediaStateTime g now).queue ++ [item]) ::
            (actionJump { updateMediaStateTime g now with
                queue := (updateMediaStateTime g now).queue ++ [item] } true
              ⟨some (PyVal.vint 1), none⟩ now).events,
          (actionJump { updateMediaStateTime g now with
              queue := (updateMediaStateTime g now).queue ++ [item] } true
            ⟨some (PyVal.vint 1), none⟩ now).exn⟩) ∧
    (playImmediately (updateMediaStateTime g now) = false →
      addSong g item now =
        ⟨{ updateMediaStateTime g now with
            queue := (updateMediaStateTime g now).queue ++ [item] },
          [Ev.queueEv Target.everyone ((updateMediaStateTime g now).queue ++ [item])],
          none⟩) ∧
    (actionAdd ((register (initGuild "abc" 0) 1 0).1) ⟨false, none, some "x"⟩
        (fun _ => none) (fun _ => [track200]) 0).guild.media_state =
      { current_time := 0, length := 200, playing := true, queue_index := 0 } := by
  refine ⟨?_, ?_, ?_, by decide⟩
  · unfold playImmediately
    simp [Bool.and_eq_true, beq_iff_eq, updateMediaStateTime_queue]
  · intro h2
    unfold addSong
    dsimp only
    rw [if_pos h2]
  · intro h3
    unfold addSong
    dsimp only
    rw [if_neg (by rw [h3]; exact Bool.false_ne_true)]

/-- Witness for C2: on a fresh registered room the fired branch applies
(the iff and the fire implication instantiated at that room). -/
theorem C2_add_auto_advance_witness :
    playImmediately (updateMediaStateTime ((register (initGuild "abc" 0) 1 0).1) 0) = true ∧
    addSong ((register (initGuild "abc" 0) 1 0).1) track200 0 =
      ⟨(actionJump { updateMediaStateTime ((register (initGuild "abc" 0) 1 0).1) 0 with
            queue := (updateMediaStateTime ((register (initGuild "abc" 0) 1 0).1) 0).queue ++ [track200] } true
          ⟨some (PyVal.vint 1), none⟩ 0).guild,
        Ev.queueEv Target.everyone
            ((updateMediaStateTime ((register (initGuild "abc" 0) 1 0).1) 0).queue ++ [track200]) ::
          (actionJump { updateMediaStateTime ((register (initGuild "abc" 0) 1 0).1) 0 with
              queue := (updateMediaStateTime ((register (initGuild "abc" 0) 1 0).1) 0).queue ++ [track200] } true
            ⟨some (PyVal.vint 1), none⟩ 0).events,
        (actionJump { updateMediaStateTime ((register (initGuild "abc" 0) 1 0).1) 0 with
            queue := (updateMediaStateTime ((register (initGuild "abc" 0) 1 0).1) 0).queue ++ [track200] } true
          ⟨some (PyVal.vint 1), none⟩ 0).exn⟩ :=
  ⟨by decide, (C2_add_auto_advance ((register (initGuild "abc" 0) 1 0).1) track200 0).2.1 (by decide)⟩

/-- C3: reconciliation always stamps last_update_at with now; it advances
current_time by the elapsed whole seconds clamped to length exactly when
playing is true and was_paused is false (was_paused records that the
previous reconciliation found the room paused); otherwise current_time is
untouched; and after play_pause(false) any wall-clock delay followed by a
state read leaves current_time unchanged. -/
theorem C3_reconcile_clock (g : Guild) (now : Nat) (h : g.last_update_time ≤ now) :
    (updateMediaStateTime g now).last_update_time = now ∧
    ((g.media_state.playing && !g.was_paused) = true →
      (updateMediaStateTime g now).media_state.current_time =
        min (g.media_state.current_time + (now - g.last_update_time))
          g.media_state.length) ∧
    ((g.media_state.playing && !g.was_paused) = false →
      (updateMediaStateTime g now).media_state.current_time =
        g.media_state.current_time) ∧
    (∀ later : Nat,
      (mediaStateEvent Target.requester
          (actionPlayPause g (PyVal.vbool false) now).guild
          later).1.media_state.current_time =
        g.media_state.current_time) := by
  refine ⟨rfl, ?_, ?_, ?_⟩
  · intro hc
    unfold updateMediaStateTime
    dsimp only
    rw [if_pos hc]
  · intro hc
    unfold updateMediaStateTime
    dsimp only
    rw [if_neg (by rw [hc]; exact Bool.false_ne_true)]
  · intro later
    simp [actionPlayPause, mediaStateEvent, updateMediaStateTime]

/-- Witness for C3: the playing one-track guild at wall-clock 5 advances
by five seconds on reconciliation, and a pause at 5 followed by a state
read at 99 leaves current_time at its pre-pause value. -/
theorem C3_reconcile_clock_witness :
    gPlaying.last_update_time ≤ 5 ∧
    (updateMediaStateTime gPlaying 5).last_update_time = 5 ∧
    (updateMediaStateTime gPlaying 5).media_state.current_time =
      min (gPlaying.media_state.current_time + (5 - gPlaying.last_update_time))
        gPlaying.media_state.length ∧
    (mediaStateEvent Target.requester
        (actionPlayPause gPlaying (PyVal.vbool false) 5).guild
        99).1.media_state.current_time =
      gPlaying.media_state.current_time := by
  have r := C3_reconcile_clock gPlaying 5 (by decide)
  exact ⟨by decide, r.1, r.2.1 (by decide), r.2.2.2 99⟩

/-- A three-member guild on the first of two tracks; members 1 and 2 have
already reported finished, member 3 has not. -/
def gThree : Guild :=
  { id := "t",
    users := [(1, ⟨1, true, none, none, none⟩), (2, ⟨2, true, none, none, none⟩),
              (3, ⟨3, false, none, none, none⟩)],
    media_state := ⟨10, 10, true, 0⟩,
    last_update_time := 0, was_paused := false,
    queue := [trackA, trackB] }

/-- C4: mark_finished sets the caller's finished flag; while some member
is still unfinished nothing else happens; once every member is finished
the flags are all cleared and, when queue_index is the last index, nothing
further happens, while otherwise an internal jump(+1, time 0) advances to
queue_index + 1 with playing true and every flag false. -/
theorem C4_mark_finished_barrier (g : Guild) (conn : Nat) (m : Member) (now : Nat)
    (item : QueueItem) (hm : lookupUser g.users conn = some m) :
    ((setUser g.users conn { m with finished := true }).all
        (fun p => p.2.finished) = false →
      actionMarkFinished g conn now =
        ⟨{ g with users := setUser g.users conn { m with finished := true } },
          [], none⟩) ∧
    ((setUser g.users conn { m with finished := true }).all
        (fun p => p.2.finished) = true →
      g.media_state.queue_index = (g.queue.length : Int) - 1 →
      actionMarkFinished g conn now =
        ⟨{ g with users := ((setUser g.users conn { m with finished := true }).map
              (fun p => (p.1, { p.2 with finished := false }))) }, [], none⟩) ∧
    ((setUser g.users conn { m with finished := true }).all
        (fun p => p.2.finished) = true →
      g.media_state.queue_index ≠ (g.queue.length : Int) - 1 →
      guildInv g →
      g.queue[(g.media_state.queue_index + 1).toNat]? = some item →
      actionMarkFinished g conn now =
        ⟨{ g with
            users := ((setUser g.users conn { m with finished := true }).map
              (fun p => (p.1, { p.2 with finished := false }))),
            last_update_time := now,
            was_paused := false,
            media_state := { current_time := 0, length := item.length,
                             playing := true,
                             queue_index := g.media_state.queue_index + 1 } },
          [Ev.state Target.everyone
            { current_time := 0, length := item.length, playing := true,
              queue_index := g.media_state.queue_index + 1 }],
          none⟩) := by
  unfold actionMarkFinished
  rw [hm]
  dsimp only
  refine ⟨?_, ?_, ?_⟩
  · intro hall
    rw [if_neg (by rw [hall]; exact Bool.false_ne_true)]
  · intro hall hlast
    rw [if_pos hall, if_pos hlast]
  · intro hall hlast hinv hitem
    rw [if_pos hall, if_neg hlast]
    have hin : 0 ≤ g.media_state.queue_index + 1 ∧
        g.media_state.queue_index + 1 < (g.queue.length : Int) := by
      obtain ⟨hA, hB, hC⟩ := hinv
      rcases hB with hB | hB
      · constructor <;> omega
      · constructor <;> omega
    have r := actionJump_success
      { g with users := ((setUser g.users conn { m with finished := true }).map
          (fun p => (p.1, { p.2 with finished := false }))) }
      false 1 none now item hin hitem (by constructor <;> simp)
    refine r.trans ?_
    rw [clear_finished_twice]
    rfl

/-- Witness for C4 on the three-member guild: a finished report from the
already finished member 1 leaves two finished flags and does not advance,
while the report of the last unfinished member 3 advances to queue index 1
(the 20-second track) and clears every flag. -/
theorem C4_mark_finished_barrier_witness :
    actionMarkFinished gThree 1 7 =
      ⟨{ gThree with users := setUser gThree.users 1 ⟨1, true, none, none, none⟩ },
        [], none⟩ ∧
    actionMarkFinished gThree 3 7 =
      ⟨{ gThree with
          users := ((setUser gThree.users 3 ⟨3, true, none, none, none⟩).map
            (fun p => (p.1, { p.2 with finished := false }))),
          last_update_time := 7,
          was_paused := false,
          media_state := { current_time := 0, length := trackB.length,
                           playing := true,
                           queue_index := gThree.media_state.queue_index + 1 } },
        [Ev.state Target.everyone
          { current_time := 0, length := trackB.length, playing := true,
            queue_index := gThree.media_state.queue_index + 1 }],
        none⟩ := by
  constructor
  · exact (C4_mark_finished_barrier gThree 1 ⟨1, true, none, none, none⟩ 7 trackB
      (by decide)).1 (by decide)
  · exact (C4_mark_finished_barrier gThree 3 ⟨3, false, none, none, none⟩ 7 trackB
      (by decide)).2.2 (by decide) (by decide) (by decide) (by decide)
